import Mathlib

/-!
Shallow embedding of the two ETL scripts in this repository:
* `netflix-etl-mysql.py` — CSV → normalized MySQL schema (shows, four name-keyed
  lookup tables, four junction tables), modelled as pure state transformers over
  an explicit database value;
* `exchangerates.py` — dates → Frankfurter API → CSV, modelled with the network
  as an explicit oracle from URL to outcome.

Machine-level effects that the claims do not touch (logging, the concrete MySQL
wire protocol, file handles) are not modelled; fallible steps return
`Option`/`Except`, and totality of an embedded function is the embedding of
"never raises past its boundary".
-/

/-! ### Python string primitives used by both scripts -/

/-- Whitespace recognised by Python's `str.strip()` (ASCII subset; the inputs at
issue contain no exotic Unicode whitespace). -/
def isPySpace (c : Char) : Bool :=
  c = ' ' || c = '\t' || c = '\n' || c = '\r' || c = '\x0b' || c = '\x0c'

def pyStripList (cs : List Char) : List Char :=
  ((cs.dropWhile isPySpace).reverse.dropWhile isPySpace).reverse

/-- Python `s.strip()`. -/
def pyStrip (s : String) : String :=
  String.mk (pyStripList s.data)

def splitCommaGo (acc : List Char) : List Char → List String
  | [] => [String.mk acc.reverse]
  | c :: rest =>
    if c = ',' then String.mk acc.reverse :: splitCommaGo [] rest
    else splitCommaGo (c :: acc) rest

/-- Python `s.split(',')`: splits at every comma and keeps empty pieces
(`"".split(',') == [""]`). -/
def pySplitComma (s : String) : List String :=
  splitCommaGo [] s.data

def digitsToNat (acc : Nat) : List Char → Nat
  | [] => acc
  | c :: rest => digitsToNat (acc * 10 + (c.toNat - '0'.toNat)) rest

def parseUnsignedInt (cs : List Char) : Option Nat :=
  match cs with
  | [] => none
  | _ => if cs.all Char.isDigit then some (digitsToNat 0 cs) else none

/-- Python `int(s)` for a decimal string: surrounding whitespace is stripped, an
optional sign is accepted, then one or more digits. (Underscore digit grouping
is not modelled; no input in the claims uses it.) -/
def pyInt (s : String) : Option Int :=
  match (pyStrip s).data with
  | '-' :: rest => (parseUnsignedInt rest).map (fun n => -(n : Int))
  | '+' :: rest => (parseUnsignedInt rest).map (fun n => (n : Int))
  | cs => (parseUnsignedInt cs).map (fun n => (n : Int))

def firstIntTokenGo : List Char → Option Nat
  | [] => none
  | c :: rest =>
    if c.isDigit then some (digitsToNat 0 (c :: rest.takeWhile Char.isDigit))
    else firstIntTokenGo rest

/-- Python `re.search` with pattern `(\d+)` on `s`: the first maximal run of
decimal digits in `s`, as a number, if any digit occurs. -/
def firstIntToken (s : String) : Option Nat :=
  firstIntTokenGo s.data

/-- Python `s.lower()` (ASCII; the header sentinel `'show_id'` is ASCII). -/
def pyLower (s : String) : String :=
  String.mk (s.data.map Char.toLower)

def startsWithChars : List Char → List Char → Bool
  | [], _ => true
  | _ :: _, [] => false
  | p :: ps, c :: cs => p = c && startsWithChars ps cs

def hasSubChars (pat : List Char) : List Char → Bool
  | [] => startsWithChars pat []
  | c :: rest => startsWithChars pat (c :: rest) || hasSubChars pat rest

/-- Python `pat in hay` on strings: substring containment. -/
def pyContains (hay pat : String) : Bool :=
  hasSubChars pat.data hay.data

/-! ### Date parsing with strptime format `'%Y-%m-%d'`

Both scripts parse dates with exactly this format. `_strptime` compiles `%Y` to
four digits, `%m` to `1[0-2]|0[1-9]|[1-9]` and `%d` to `3[01]|[12]\d|0[1-9]|[1-9]`
(alternatives tried in order, with backtracking), requires the whole string to
be consumed, and `datetime` then validates the day against the month length and
the year against MINYEAR = 1. -/

def monthMatches : List Char → List (Nat × List Char)
  | [] => []
  | c :: rest =>
    (match c, rest with
     | '1', c2 :: rest2 =>
       if c2 = '0' || c2 = '1' || c2 = '2' then [(10 + (c2.toNat - '0'.toNat), rest2)] else []
     | '0', c2 :: rest2 =>
       if '1' ≤ c2 && c2 ≤ '9' then [(c2.toNat - '0'.toNat, rest2)] else []
     | _, _ => [])
    ++ (if '1' ≤ c && c ≤ '9' then [(c.toNat - '0'.toNat, rest)] else [])

def dayMatches : List Char → List (Nat × List Char)
  | [] => []
  | c :: rest =>
    (match c, rest with
     | '3', c2 :: rest2 =>
       if c2 = '0' || c2 = '1' then [(30 + (c2.toNat - '0'.toNat), rest2)] else []
     | '1', c2 :: rest2 =>
       if c2.isDigit then [(10 + (c2.toNat - '0'.toNat), rest2)] else []
     | '2', c2 :: rest2 =>
       if c2.isDigit then [(20 + (c2.toNat - '0'.toNat), rest2)] else []
     | '0', c2 :: rest2 =>
       if '1' ≤ c2 && c2 ≤ '9' then [(c2.toNat - '0'.toNat, rest2)] else []
     | _, _ => [])
    ++ (if '1' ≤ c && c ≤ '9' then [(c.toNat - '0'.toNat, rest)] else [])

def isLeapYear (y : Nat) : Bool :=
  (y % 4 = 0 && y % 100 ≠ 0) || y % 400 = 0

def daysInMonth (y m : Nat) : Nat :=
  if m = 2 then (if isLeapYear y then 29 else 28)
  else if m = 4 || m = 6 || m = 9 || m = 11 then 30
  else 31

/-- The call `datetime.strptime(s, '%Y-%m-%d')` as a function to an optional
(year, month, day) triple: `none` exactly when the call raises `ValueError`. -/
def parseYMD (s : String) : Option (Nat × Nat × Nat) :=
  match s.data with
  | y1 :: y2 :: y3 :: y4 :: '-' :: rest =>
    if y1.isDigit && y2.isDigit && y3.isDigit && y4.isDigit then
      let y := digitsToNat 0 [y1, y2, y3, y4]
      (monthMatches rest).findSome? (fun mr =>
        match mr.2 with
        | '-' :: rest2 =>
          (dayMatches rest2).findSome? (fun dr =>
            if dr.2 = [] && 1 ≤ y && dr.1 ≤ daysInMonth y mr.1 then
              some (y, mr.1, dr.1)
            else none)
        | _ => none)
    else none
  | _ => none

def digitChar (n : Nat) : Char :=
  Char.ofNat ('0'.toNat + n)

/-- Two-digit zero-padded decimal rendering (`strftime('%d')`, ISO month/day). -/
def pad2 (n : Nat) : String :=
  String.mk [digitChar (n / 10 % 10), digitChar (n % 10)]

/-- Four-digit zero-padded decimal rendering (ISO year). -/
def pad4 (n : Nat) : String :=
  String.mk [digitChar (n / 1000 % 10), digitChar (n / 100 % 10),
             digitChar (n / 10 % 10), digitChar (n % 10)]

/-! ### Exchange-rate script: data model (`exchangerates.py`) -/

/-- A finite decimal value `mant / 10 ^ fracDigits`, kept in the canonical form
with no trailing fractional zeros. This carries the exact value of a JSON
number or of a successful Python `float(...)` coercion; IEEE-754 rounding is
immaterial to every property checked here (only success/failure of the coercion
and equality of decimal-representable values are at stake). -/
structure DecValue where
  mant : Int
  fracDigits : Nat
deriving DecidableEq, Repr

def dvCanonGo : Int → Nat → DecValue
  | m, 0 => ⟨m, 0⟩
  | m, fd + 1 => if m % 10 = 0 then dvCanonGo (m / 10) fd else ⟨m, fd + 1⟩

def dvMake (m : Int) (fd : Nat) : DecValue :=
  dvCanonGo m fd

/-- Assemble a decimal value from sign, mantissa digits, fractional digit count
and decimal exponent. -/
def dvOfParts (neg : Bool) (digits fracCount : Nat) (e : Int) : DecValue :=
  let m : Int := if neg then -(digits : Int) else (digits : Int)
  let shift : Int := e - (fracCount : Int)
  if 0 ≤ shift then dvMake (m * 10 ^ shift.toNat) 0 else dvMake m (-shift).toNat

def grabDigits : List Char → Nat → Nat → Nat × Nat × List Char
  | [], v, k => (v, k, [])
  | c :: rest, v, k =>
    if c.isDigit then grabDigits rest (v * 10 + (c.toNat - '0'.toNat)) (k + 1)
    else (v, k, c :: rest)

/-- Python `float(s)` on a string: strip whitespace, optional sign, decimal
digits with optional fractional part and optional exponent; at least one
mantissa digit is required and the whole string must be consumed. `inf`/`nan`
literals and underscore grouping are not modelled (they denote no finite
decimal value and no claim depends on them). -/
def pyFloatOfString (s : String) : Option DecValue :=
  let cs0 := (pyStrip s).data
  let signRes : Bool × List Char :=
    match cs0 with
    | '-' :: rest => (true, rest)
    | '+' :: rest => (false, rest)
    | _ => (false, cs0)
  let r1 := grabDigits signRes.2 0 0
  let r2 : Nat × Nat × List Char :=
    match r1.2.2 with
    | '.' :: rest => grabDigits rest 0 0
    | _ => (0, 0, r1.2.2)
  if r1.2.1 + r2.2.1 = 0 then none
  else
    let mantDigits := r1.1 * 10 ^ r2.2.1 + r2.1
    match r2.2.2 with
    | [] => some (dvOfParts signRes.1 mantDigits r2.2.1 0)
    | e :: rest =>
      if e = 'e' || e = 'E' then
        let expSign : Bool × List Char :=
          match rest with
          | '-' :: r => (true, r)
          | '+' :: r => (false, r)
          | _ => (false, rest)
        let r3 := grabDigits expSign.2 0 0
        if r3.2.1 = 0 || r3.2.2 ≠ [] then none
        else
          let ev : Int := if expSign.1 then -(r3.1 : Int) else (r3.1 : Int)
          some (dvOfParts signRes.1 mantDigits r2.2.1 ev)
      else none

/-- JSON values that can appear as a rate inside the payload's `"rates"`
mapping. Numbers are carried as exact decimal values (a JSON number literal is
a decimal literal). Arrays and objects only matter through the failure of
`float(...)` on them, so they carry no structure. -/
inductive JVal where
  | jstr (s : String)
  | jnum (v : DecValue)
  | jbool (b : Bool)
  | jnull
  | jarr
  | jobj
deriving DecidableEq, Repr

/-- Python `float(rate)` as used at line 148 of `exchangerates.py`: numbers and
bools coerce, strings are parsed as float literals, `None`, lists and dicts
raise `TypeError` — the `except (ValueError, TypeError)` clause turns every
failure into `none`. -/
def pyFloat : JVal → Option DecValue
  | .jstr s => pyFloatOfString s
  | .jnum v => some v
  | .jbool b => some (if b then ⟨1, 0⟩ else ⟨0, 0⟩)
  | .jnull => none
  | .jarr => none
  | .jobj => none

/-- The parsed JSON body of a Frankfurter response, restricted to the keys the
script touches: `"base"` and `"rates"` (read by the transform) and the echoed
`"date"` field (present in real responses, deliberately ignored by the
transform). A missing key is `none`. -/
structure RatePayload where
  base : Option String
  rates : Option (List (String × JVal))
  date : Option String
deriving DecidableEq, Repr

/-- Python truthiness of the payload dict: non-empty, i.e. at least one of the
modelled keys is present. -/
def payloadTruthy (p : RatePayload) : Bool :=
  p.base.isSome || p.rates.isSome || p.date.isSome

/-- One flattened output row of the rates CSV
(`from_currency, to_currency, exchange_rate, effective_date`). -/
structure CsvRow where
  from_currency : String
  to_currency : String
  exchange_rate : DecValue
  effective_date : String
deriving DecidableEq, Repr

/-- Lines 130–155 of `exchangerates.py`: `raw_json_data and
raw_json_data.get("base")` guards the whole transform; `rates` defaults to the
empty mapping; every rate is coerced with `float(...)` and entries whose
coercion fails are skipped with a warning. Every emitted row carries the
requested date, never the echoed one. -/
def transform_json_to_csv_rows (raw_json_data : Option RatePayload)
    (requested_date : String) : List CsvRow :=
  match raw_json_data with
  | none => []
  | some p =>
    if payloadTruthy p then
      match p.base with
      | some b =>
        if b ≠ "" then
          (p.rates.getD []).filterMap (fun cv =>
            (pyFloat cv.2).map (fun r => ⟨b, cv.1, r, requested_date⟩))
        else []
      | none => []
    else []

/-- Outcome of `requests.get(url)` followed by `raise_for_status()` and
`.json()`: a parsed payload, or one of the failure modes the `except
requests.exceptions.RequestException` clause catches (connection-level
failure, non-2xx status, undecodable body). -/
inductive FetchOutcome where
  | ok (payload : RatePayload)
  | httpStatusError
  | transportError
  | invalidJson
deriving DecidableEq, Repr

def BASE_API_URL : String := "https://api.frankfurter.dev/v1/"

def DEFAULT_BASE_CURRENCY : String := "USD"

/-- The request URL: BASE_API_URL, then the zero-padded ISO form of the parsed
date (`date_obj.isoformat()`), then the from-currency query parameter. -/
def apiUrl (y m d : Nat) (base_currency : String) : String :=
  BASE_API_URL ++ pad4 y ++ "-" ++ pad2 m ++ "-" ++ pad2 d ++ "?from=" ++ base_currency

/-- Lines 105–127 of `exchangerates.py`. The network is an explicit oracle from
URL to outcome; the function being total is the embedding of "never raises past
its boundary". An unparseable date returns `(date, None)` before any URL is
built; a fetch failure returns `(date, None)`; success returns the payload. -/
def fetch_exchange_rate_for_date (net : String → FetchOutcome)
    (target_date_str base_currency : String) : String × Option RatePayload :=
  match parseYMD target_date_str with
  | none => (target_date_str, none)
  | some ymd =>
    match net (apiUrl ymd.1 ymd.2.1 ymd.2.2 base_currency) with
    | .ok payload => (target_date_str, some payload)
    | .httpStatusError => (target_date_str, none)
    | .transportError => (target_date_str, none)
    | .invalidJson => (target_date_str, none)

/-- The three run-level outcomes of the `__main__` block, distinguished by
their distinct log messages. -/
inductive ExitStatus where
  | success
  | noKeysFatal
  | noRowsFatal
deriving DecidableEq, Repr

/-- Process exit code for each outcome (`sys.exit(1)` on the two fatal paths,
implicit 0 otherwise). -/
def statusCode : ExitStatus → Nat
  | .success => 0
  | .noKeysFatal => 1
  | .noRowsFatal => 1

/-- The CSV-writer state of the `__main__` block: the `header_written` flag and
the rows written after the header. -/
structure MainState where
  header_written : Bool
  csvRows : List CsvRow
deriving DecidableEq, Repr

/-- Lines 189–224 of `exchangerates.py`: handling of one completed future's
`(requested_date, payload)` result. A `None` or falsy payload is skipped; a
non-empty transform writes the header once and appends the rows. -/
def processResult (st : MainState) (res : String × Option RatePayload) : MainState :=
  match res.2 with
  | none => st
  | some payload =>
    if payloadTruthy payload then
      match transform_json_to_csv_rows (some payload) res.1 with
      | [] => st
      | r :: rs => ⟨true, st.csvRows ++ r :: rs⟩
    else st

/-- The stripped, non-empty keys submitted to the pool (lines 176–180); one
future per list element — duplicates are distinct futures, so no
deduplication happens here. -/
def submittedKeys (dates : List String) : List String :=
  (dates.map pyStrip).filter (fun k => k ≠ "")

/-- Lines 158–240 of `exchangerates.py`: the `__main__` driver. If no non-empty
date is submitted the run exits fatally before writing anything; otherwise
results are drained (completion order is arbitrary; the fold uses submission
order — the run-level outcome does not depend on it) and the final
`header_written` check decides between success and the "no rows written" fatal
exit. -/
def mainRun (net : String → FetchOutcome) (dates : List String) :
    ExitStatus × MainState :=
  match submittedKeys dates with
  | [] => (.noKeysFatal, ⟨false, []⟩)
  | k :: ks =>
    let final := (k :: ks).foldl (fun st key =>
      processResult st (fetch_exchange_rate_for_date net key DEFAULT_BASE_CURRENCY))
      ⟨false, []⟩
    if final.header_written then (.success, final) else (.noRowsFatal, final)

/-! ### Netflix script: data model (`netflix-etl-mysql.py`) -/

/-- One name-keyed lookup table (`directors`, `cast_members`, `countries`,
`genres`): rows of (surrogate id, name) plus the `AUTO_INCREMENT` counter. The
`UNIQUE` constraint on the name column is the invariant `validTable` below. -/
structure LookupTable where
  rows : List (Nat × String)
  nextId : Nat
deriving DecidableEq, Repr

def tableNames (t : LookupTable) : List String :=
  t.rows.map (fun r => r.2)

/-- The `UNIQUE` constraint on the name column: no two rows share a name. -/
def validTable (t : LookupTable) : Prop :=
  (tableNames t).Nodup

def rowsForName (t : LookupTable) (name_value : String) : List (Nat × String) :=
  t.rows.filter (fun r => r.2 == name_value)

/-- The SELECT id-by-name statement followed by `fetchone()`: the id of the
first row with that name, if any. -/
def selectByName (t : LookupTable) (name_value : String) : Option Nat :=
  (t.rows.find? (fun r => r.2 == name_value)).map (fun r => r.1)

/-- The INSERT-name statement: the `UNIQUE`
constraint makes this fail with MySQL error 1062 when the name is already
present; otherwise the next `AUTO_INCREMENT` id is assigned and exposed as
`cursor.lastrowid`. -/
def insertName (t : LookupTable) (name_value : String) : Except Nat (Nat × LookupTable) :=
  if t.rows.any (fun r => r.2 == name_value) then .error 1062
  else .ok (t.nextId, ⟨t.rows ++ [(t.nextId, name_value)], t.nextId + 1⟩)

/-- Lines 144–171 of `netflix-etl-mysql.py`. `tSelect` is the table state the
SELECT observes and `tInsert` the state the INSERT runs against — they differ
exactly when a concurrent writer inserted rows in between (the lost race the
`err.errno == 1062` handler addresses); in the single-threaded pipeline
`tInsert = tSelect`. On 1062 the id is re-selected; any other error (or a 1062
whose re-select finds nothing) is re-raised. -/
def get_or_create_id (tSelect tInsert : LookupTable) (name_value : String) :
    Except Nat (Nat × LookupTable) :=
  match selectByName tSelect name_value with
  | some id => .ok (id, tInsert)
  | none =>
    match insertName tInsert name_value with
    | .ok r => .ok r
    | .error errno =>
      if errno = 1062 then
        match selectByName tInsert name_value with
        | some id => .ok (id, tInsert)
        | none => .error errno
      else .error errno

/-- The INSERT IGNORE statement on a junction table: a duplicate
(show_id, id) pair is silently absorbed by the composite primary key. -/
def insertIgnoreJunction (jn : List (String × Nat)) (p : String × Nat) :
    List (String × Nat) :=
  if p ∈ jn then jn else jn ++ [p]

/-- One lookup table together with its junction table (e.g. `directors` and
`show_directors`). -/
structure EntityTables where
  lookup : LookupTable
  junction : List (String × Nat)
deriving DecidableEq, Repr

/-- One iteration of a per-name loop (lines 284–291 and its three twins):
`get_or_create_id` for the name, then `INSERT IGNORE` of the (show_id, id)
junction pair. Sequential execution: the same table state serves the SELECT and
the INSERT. A MySQL error propagates to the caller's per-row handler. -/
def refStep (et : EntityTables) (show_id name : String) : Except Nat EntityTables :=
  match get_or_create_id et.lookup et.lookup name with
  | .ok r => .ok ⟨r.2, insertIgnoreJunction et.junction (show_id, r.1)⟩
  | .error errno => .error errno

/-- The whole per-name loop over one field of one show. -/
def processNames (et : EntityTables) (show_id : String) :
    List String → Except Nat EntityTables
  | [] => .ok et
  | n :: rest =>
    match refStep et show_id n with
    | .ok et2 => processNames et2 show_id rest
    | .error e => .error e

/-- Lines 283–286 (and the three twin blocks): the `if directors_str:` guard,
`split(',')`, per-element `strip()`, and the `if director_name:` emptiness
filter. This is the exact sequence of child-entity names handed to
`get_or_create_id` / `INSERT IGNORE` for one field of one show — note that no
deduplication happens here. -/
def childRefs (s : String) : List String :=
  if s = "" then [] else ((pySplitComma s).map pyStrip).filter (fun n => n ≠ "")

/-- Processing of one list-valued field of one show against the sink. -/
def processField (et : EntityTables) (show_id field : String) : Except Nat EntityTables :=
  processNames et show_id (childRefs field)

/-- The same child-entity name referenced by a sequence of shows (e.g. one
director appearing on several shows), processed sequentially. -/
def processShows (et : EntityTables) (name : String) :
    List String → Except Nat EntityTables
  | [] => .ok et
  | sid :: rest =>
    match refStep et sid name with
    | .ok et2 => processShows et2 name rest
    | .error e => .error e

/-- A row of the `shows` table (columns of the `INSERT` at lines 266–275). -/
structure ShowRecord where
  show_id : String
  type : String
  title : String
  date_added_day : Option String
  date_added_year : Option Int
  release_year : Int
  rating : String
  duration : Option Nat
  seasons : Option Nat
  description : String
deriving DecidableEq, Repr

/-- The INSERT with ON DUPLICATE KEY UPDATE (lines 266-280): overwrite every
non-key column when a row with the same `show_id` exists, else append. -/
def upsertShow : List ShowRecord → ShowRecord → List ShowRecord
  | [], r => [r]
  | s :: rest, r => if s.show_id = r.show_id then r :: rest else s :: upsertShow rest r

/-- Lines 232–247: `re.search(r'(\d+)', duration_seasons_raw)` extracts the
first integer token of the (already stripped) field; a `Movie` fills
`duration`, a `TV Show` fills `seasons`, any other type leaves both NULL (with
a warning). The result is the (duration, seasons) pair. -/
def parseDurationSeasons (item_type duration_seasons_raw : String) :
    Option Nat × Option Nat :=
  if item_type = "Movie" then (firstIntToken duration_seasons_raw, none)
  else if item_type = "TV Show" then (none, firstIntToken duration_seasons_raw)
  else (none, none)

/-- Lines 253–262: an empty `date_added` leaves both components NULL; a
`strptime('%Y-%m-%d')` failure is caught and likewise leaves them NULL; success
stores `strftime('%d')` (the zero-padded day) and the year. -/
def parseDateAdded (date_added_full : String) : Option String × Option Int :=
  if date_added_full = "" then (none, none)
  else
    match parseYMD date_added_full with
    | some ymd => (some (pad2 ymd.2.2), some (ymd.1 : Int))
    | none => (none, none)

/-- The error modes of one row's try block, mirroring its two except clauses:
`(ValueError, IndexError, AttributeError)` at lines 326–329 and
`mysql.connector.Error` at lines 330–333. -/
inductive RowError where
  | parseError
  | dbError (errno : Nat)
deriving DecidableEq, Repr

/-- The whole normalized database: the `shows` table and the four lookup +
junction pairs. -/
structure DB where
  shows : List ShowRecord
  directors : EntityTables
  cast_members : EntityTables
  countries : EntityTables
  genres : EntityTables
deriving DecidableEq, Repr

/-- The try block of lines 216–324, on a row already validated/truncated to 12
columns (so `row[i]` cannot raise; `getD` mirrors the checked access).
`int(row[7].strip())` raising `ValueError` is the parse failure the first
except clause catches; the inner date try/except never fails the row; a MySQL
error from `get_or_create_id` would surface as `dbError` (in this pure
sequential model it cannot occur, but the plumbing is kept). -/
def processRow (db : DB) (row : List String) : Except RowError DB :=
  let show_id := pyStrip (row.getD 0 "")
  let item_type := pyStrip (row.getD 1 "")
  let title := pyStrip (row.getD 2 "")
  let directors_str := pyStrip (row.getD 3 "")
  let cast_members_str := pyStrip (row.getD 4 "")
  let countries_str := pyStrip (row.getD 5 "")
  let date_added_full := pyStrip (row.getD 6 "")
  match pyInt (pyStrip (row.getD 7 "")) with
  | none => .error .parseError
  | some release_year =>
    let rating := pyStrip (row.getD 8 "")
    let ds := parseDurationSeasons item_type (pyStrip (row.getD 9 ""))
    let listed_in_str := pyStrip (row.getD 10 "")
    let description := pyStrip (row.getD 11 "")
    let da := parseDateAdded date_added_full
    let srec : ShowRecord :=
      ⟨show_id, item_type, title, da.1, da.2, release_year, rating, ds.1, ds.2, description⟩
    let shows2 := upsertShow db.shows srec
    match processField db.directors show_id directors_str with
    | .error e => .error (.dbError e)
    | .ok dirs =>
      match processField db.cast_members show_id cast_members_str with
      | .error e => .error (.dbError e)
      | .ok casts =>
        match processField db.countries show_id countries_str with
        | .error e => .error (.dbError e)
        | .ok ctys =>
          match processField db.genres show_id listed_in_str with
          | .error e => .error (.dbError e)
          | .ok gnrs => .ok ⟨shows2, dirs, casts, ctys, gnrs⟩

/-- The connection state: the committed database and the pending (uncommitted)
database the cursor operates on. `commit` copies pending over committed;
`rollback` copies committed over pending. -/
structure EtlState where
  committed : DB
  pending : DB
deriving DecidableEq, Repr

def EXPECTED_COLS : Nat := 12

/-- The header test at line 197: index 0 and the first field, lowercased,
containing the substring `show_id`. -/
def isHeaderRow (row : List String) : Bool :=
  pyContains (pyLower (row.getD 0 "")) "show_id"

/-- Lines 192–337: one iteration of the reader loop at 0-based index `i`. Empty
rows and a first-row header are skipped; a row with fewer than 12 columns is
logged, rolled back and skipped; a longer row is truncated to its first 12
columns; a parse or MySQL failure rolls the connection back to the last
committed state and the loop continues; after a successful row, every 100th
row (1-based) commits. -/
def etlStep (st : EtlState) (i : Nat) (row : List String) : EtlState :=
  if row = [] then st
  else if i = 0 ∧ isHeaderRow row then st
  else if row.length < EXPECTED_COLS then ⟨st.committed, st.committed⟩
  else
    match processRow st.pending (row.take EXPECTED_COLS) with
    | .error _ => ⟨st.committed, st.committed⟩
    | .ok db =>
      if (i + 1) % 100 = 0 then ⟨db, db⟩ else ⟨st.committed, db⟩

/-- The reader loop, indexed as `enumerate(reader)`. -/
def etlLoop (st : EtlState) (i : Nat) : List (List String) → EtlState
  | [] => st
  | row :: rest => etlLoop (etlStep st i row) (i + 1) rest

/-- Lines 177–186: `DELETE FROM` the four junction tables and `shows`, then
commit. The lookup tables keep their rows and `AUTO_INCREMENT` counters. -/
def clearForImport (db : DB) : DB :=
  ⟨[], ⟨db.directors.lookup, []⟩, ⟨db.cast_members.lookup, []⟩,
    ⟨db.countries.lookup, []⟩, ⟨db.genres.lookup, []⟩⟩

/-- Lines 173–341: clear-and-commit, run the reader loop over the CSV records
from index 0, then the final `conn.commit()`. The result is the committed
database at exit. -/
def etl_process (db : DB) (rows : List (List String)) : DB :=
  let cleared := clearForImport db
  let final := etlLoop ⟨cleared, cleared⟩ 0 rows
  final.pending

/-- Duplicate removal keeping the first occurrence of each name, with an
accumulator of names already seen. Used only to STATE how the sink absorbs the
duplicates that `childRefs` does not remove. -/
def dedupFirstGo (seen : List String) : List String → List String
  | [] => []
  | n :: rest =>
    if n ∈ seen then dedupFirstGo seen rest
    else n :: dedupFirstGo (n :: seen) rest

def dedupFirst (l : List String) : List String :=
  dedupFirstGo [] l

/-- The sink already holds the effect of handing `name` to it for `show_id`: a
unique lookup row for the name and the junction pair for this show. -/
def processedRef (et : EntityTables) (show_id name : String) : Prop :=
  ∃ id, rowsForName et.lookup name = [(id, name)] ∧ (show_id, id) ∈ et.junction

/-! ### Helper lemmas -/

theorem filter_name_single {l : List (Nat × String)} {id : Nat} {name : String}
    (hnd : (l.map (fun r => r.2)).Nodup) (hmem : (id, name) ∈ l) :
    l.filter (fun r => r.2 == name) = [(id, name)] := by
  induction l with
  | nil => cases hmem
  | cons a rest ih =>
    simp only [List.map_cons, List.nodup_cons] at hnd
    rcases List.mem_cons.mp hmem with heq | hmem2
    · subst heq
      simp only [List.filter_cons, beq_self_eq_true, if_pos]
      have : rest.filter (fun r => r.2 == name) = [] := by
        refine List.filter_eq_nil_iff.mpr ?_
        intro r hr hbeq
        exact hnd.1 (List.mem_map.mpr ⟨r, hr, (beq_iff_eq.mp hbeq)⟩)
      simp [this]
    · have hne : ¬(a.2 == name) = true := by
        intro h
        exact hnd.1 (List.mem_map.mpr ⟨(id, name), hmem2, (beq_iff_eq.mp h).symm ▸ rfl⟩)
      simp only [List.filter_cons]
      rw [if_neg hne]
      exact ih hnd.2 hmem2

theorem find?_of_filter_singleton {α : Type} {l : List α} {x : α} {p : α → Bool}
    (h : l.filter p = [x]) : l.find? p = some x := by
  induction l with
  | nil => simp at h
  | cons a rest ih =>
    by_cases hp : p a
    · rw [List.filter_cons_of_pos hp] at h
      obtain ⟨rfl, -⟩ := List.cons_eq_cons.mp h
      simp [List.find?_cons_of_pos, hp]
    · rw [List.filter_cons_of_neg hp] at h
      rw [List.find?_cons_of_neg _ hp]
      exact ih h

theorem selectByName_of_single {t : LookupTable} {id : Nat} {name : String}
    (h : rowsForName t name = [(id, name)]) : selectByName t name = some id := by
  unfold selectByName
  rw [find?_of_filter_singleton h]
  rfl

theorem rowsForName_of_valid_mem {t : LookupTable} {id : Nat} {name : String}
    (hval : validTable t) (hmem : (id, name) ∈ t.rows) :
    rowsForName t name = [(id, name)] :=
  filter_name_single hval hmem

/-- Full specification of `get_or_create_id` in the two-state (possibly raced)
reading: provided concurrent writers only ever add rows (`hsub`) and the
uniqueness constraint holds at insert time (`hval`), the call never raises, it
returns the id of the unique row for the name in the resulting table, and the
table either already held the name (the id is the existing one) or gains
exactly the one freshly generated row. -/
theorem goc_spec (tSelect tInsert : LookupTable) (name : String)
    (hsub : ∀ r ∈ tSelect.rows, r ∈ tInsert.rows) (hval : validTable tInsert) :
    ∃ id t2, get_or_create_id tSelect tInsert name = .ok (id, t2) ∧
      rowsForName t2 name = [(id, name)] ∧
      ((t2 = tInsert ∧ (id, name) ∈ tInsert.rows) ∨
       (name ∉ tableNames tInsert ∧ id = tInsert.nextId ∧
        t2.rows = tInsert.rows ++ [(tInsert.nextId, name)] ∧
        t2.nextId = tInsert.nextId + 1)) := by
  unfold get_or_create_id
  cases hsel : selectByName tSelect name with
  | some id =>
    obtain ⟨r, hfind, hr1⟩ := Option.map_eq_some'.mp hsel
    have hmemSel : r ∈ tSelect.rows := List.mem_of_find?_eq_some hfind
    have hp := List.find?_some hfind
    simp only [beq_iff_eq] at hp
    have hrname : r.2 = name := hp
    have hrpair : (id, name) ∈ tSelect.rows := by
      have : r = (id, name) := by
        cases r; simp_all
      exact this ▸ hmemSel
    have hmemIns := hsub _ hrpair
    exact ⟨id, tInsert, rfl, rowsForName_of_valid_mem hval hmemIns, .inl ⟨rfl, hmemIns⟩⟩
  | none =>
    unfold insertName
    by_cases hany : tInsert.rows.any (fun r => r.2 == name)
    · rw [if_pos hany]
      obtain ⟨r, hrmem, hrbeq⟩ := List.any_eq_true.mp hany
      have hp : (r.2 == name) = true := hrbeq
      have hrname : r.2 = name := beq_iff_eq.mp hp
      have hrpair : (r.1, name) ∈ tInsert.rows := by
        cases r; simp_all
      have hrows := rowsForName_of_valid_mem hval hrpair
      have hsel2 : selectByName tInsert name = some r.1 := selectByName_of_single hrows
      refine ⟨r.1, tInsert, ?_, hrows, .inl ⟨rfl, hrpair⟩⟩
      simp [hsel2]
    · rw [if_neg hany]
      have hnot : name ∉ tableNames tInsert := by
        intro hmem
        obtain ⟨r, hr, hrname⟩ := List.mem_map.mp hmem
        exact hany (List.any_eq_true.mpr ⟨r, hr, beq_iff_eq.mpr hrname⟩)
      refine ⟨tInsert.nextId, _, rfl, ?_, .inr ⟨hnot, rfl, rfl, rfl⟩⟩
      unfold rowsForName
      rw [List.filter_append]
      have h1 : tInsert.rows.filter (fun r => r.2 == name) = [] := by
        refine List.filter_eq_nil_iff.mpr ?_
        intro r hr hbeq
        exact hnot (List.mem_map.mpr ⟨r, hr, beq_iff_eq.mp hbeq⟩)
      simp [h1]

/-- Sequential (single-threaded) corollary of `goc_spec`: the same table serves
SELECT and INSERT; validity is preserved, other names are untouched, and the
rows only grow. -/
theorem goc_seq (t : LookupTable) (name : String) (hval : validTable t) :
    ∃ id t2, get_or_create_id t t name = .ok (id, t2) ∧
      rowsForName t2 name = [(id, name)] ∧ validTable t2 ∧
      (∀ m, m ≠ name → rowsForName t2 m = rowsForName t m) ∧
      (∀ r ∈ t.rows, r ∈ t2.rows) := by
  obtain ⟨id, t2, hok, hrows, hcase⟩ := goc_spec t t name (fun r hr => hr) hval
  refine ⟨id, t2, hok, hrows, ?_, ?_, ?_⟩
  · rcases hcase with ⟨rfl, -⟩ | ⟨hnot, -, hrows2, -⟩
    · exact hval
    · unfold validTable tableNames at hval ⊢
      rw [hrows2, List.map_append, List.nodup_append]
      refine ⟨hval, by simp, ?_⟩
      intro x hx hmem
      simp only [List.map_cons, List.map_nil, List.mem_singleton] at hmem
      exact hnot (hmem ▸ hx)
  · intro m hm
    rcases hcase with ⟨rfl, -⟩ | ⟨-, -, hrows2, -⟩
    · rfl
    · unfold rowsForName
      rw [hrows2, List.filter_append]
      have : [(t.nextId, name)].filter (fun r => r.2 == m) = [] := by
        simp [hm.symm]
      simp [this]
  · intro r hr
    rcases hcase with ⟨rfl, -⟩ | ⟨-, -, hrows2, -⟩
    · exact hr
    · rw [hrows2]; exact List.mem_append_left _ hr

theorem insertIgnore_mem {jn : List (String × Nat)} {p q : String × Nat} :
    p ∈ insertIgnoreJunction jn q ↔ p ∈ jn ∨ p = q := by
  unfold insertIgnoreJunction
  by_cases h : q ∈ jn
  · rw [if_pos h]
    constructor
    · exact .inl
    · rintro (hp | rfl)
      · exact hp
      · exact h
  · rw [if_neg h]
    simp

theorem insertIgnore_self {jn : List (String × Nat)} {q : String × Nat} :
    q ∈ insertIgnoreJunction jn q :=
  insertIgnore_mem.mpr (.inr rfl)

theorem insertIgnore_mono {jn : List (String × Nat)} {p q : String × Nat}
    (h : p ∈ jn) : p ∈ insertIgnoreJunction jn q :=
  insertIgnore_mem.mpr (.inl h)

/-- One `get_or_create_id` + `INSERT IGNORE` step on a valid sink: it never
raises, the lookup ends with exactly one row for the name, other names and
their rows are untouched, and the junction gains (at most) the one pair. -/
theorem refStep_spec (et : EntityTables) (sid name : String)
    (hval : validTable et.lookup) :
    ∃ id et2, refStep et sid name = .ok et2 ∧
      rowsForName et2.lookup name = [(id, name)] ∧ validTable et2.lookup ∧
      (∀ m, m ≠ name → rowsForName et2.lookup m = rowsForName et.lookup m) ∧
      et2.junction = insertIgnoreJunction et.junction (sid, id) ∧
      (∀ p ∈ et.junction, p ∈ et2.junction) ∧ (sid, id) ∈ et2.junction := by
  obtain ⟨id, t2, hok, hrows, hval2, hpres, hmono⟩ := goc_seq et.lookup name hval
  refine ⟨id, ⟨t2, insertIgnoreJunction et.junction (sid, id)⟩, ?_, hrows, hval2,
    hpres, rfl, ?_, insertIgnore_self⟩
  · unfold refStep
    rw [hok]
  · intro p hp
    exact insertIgnore_mono hp

/-- Handing an already-processed (show, name) pair to the sink again is a
no-op: the SELECT finds the existing id and `INSERT IGNORE` absorbs the
duplicate junction pair. -/
theorem refStep_noop {et : EntityTables} {sid name : String} {id : Nat}
    (hrows : rowsForName et.lookup name = [(id, name)])
    (hjn : (sid, id) ∈ et.junction) :
    refStep et sid name = .ok et := by
  have hsel := selectByName_of_single hrows
  simp [refStep, get_or_create_id, hsel, insertIgnoreJunction, hjn]

/-- Once the lookup holds its unique row for a name, processing any further
shows referencing that name leaves the lookup untouched and only ever adds
junction pairs carrying that same id. -/
theorem processShows_stable (sids : List String) :
    ∀ (et : EntityTables) (name : String) (theId : Nat),
      rowsForName et.lookup name = [(theId, name)] →
      ∃ jn2, processShows et name sids = .ok ⟨et.lookup, jn2⟩ ∧
        ∀ p : String × Nat,
          p ∈ jn2 ↔ (p ∈ et.junction ∨ (p.2 = theId ∧ p.1 ∈ sids)) := by
  induction sids with
  | nil =>
    intro et name theId _
    exact ⟨et.junction, rfl, by simp⟩
  | cons sid rest ih =>
    intro et name theId h
    have hsel := selectByName_of_single h
    have hstep :
        refStep et sid name =
          .ok ⟨et.lookup, insertIgnoreJunction et.junction (sid, theId)⟩ := by
      unfold refStep get_or_create_id
      rw [hsel]
    obtain ⟨jn2, hps, hiff⟩ :=
      ih ⟨et.lookup, insertIgnoreJunction et.junction (sid, theId)⟩ name theId h
    refine ⟨jn2, ?_, ?_⟩
    · simp only [processShows]
      rw [hstep]
      exact hps
    · intro p
      rw [hiff p]
      have hmem : p ∈ insertIgnoreJunction et.junction (sid, theId) ↔
          p ∈ et.junction ∨ p = (sid, theId) := insertIgnore_mem
      rw [hmem]
      simp only [List.mem_cons, Prod.ext_iff]
      tauto

/-- The sink absorbs duplicate names within one field: processing a name list
is the same as processing it with later duplicates removed, provided every
name in `seen` has already been handed to the sink for this show. -/
theorem processNames_dedup_go (names : List String) :
    ∀ (et : EntityTables) (sid : String) (seen : List String),
      validTable et.lookup → (∀ n ∈ seen, processedRef et sid n) →
      processNames et sid names = processNames et sid (dedupFirstGo seen names) := by
  induction names with
  | nil =>
    intro et sid seen _ _
    rfl
  | cons n rest ih =>
    intro et sid seen hval hseen
    by_cases hn : n ∈ seen
    · obtain ⟨id, hrows, hjn⟩ := hseen n hn
      have hd : dedupFirstGo seen (n :: rest) = dedupFirstGo seen rest := by
        simp [dedupFirstGo, hn]
      have hl : processNames et sid (n :: rest) = processNames et sid rest := by
        simp only [processNames]
        rw [refStep_noop hrows hjn]
      rw [hd, hl]
      exact ih et sid seen hval hseen
    · have hd : dedupFirstGo seen (n :: rest) = n :: dedupFirstGo (n :: seen) rest := by
        simp [dedupFirstGo, hn]
      rw [hd]
      obtain ⟨id, et2, hok, hrows, hval2, hpres, -, hjmono, hjmem⟩ :=
        refStep_spec et sid n hval
      have hl : processNames et sid (n :: rest) = processNames et2 sid rest := by
        simp only [processNames]
        rw [hok]
      have hr : processNames et sid (n :: dedupFirstGo (n :: seen) rest) =
          processNames et2 sid (dedupFirstGo (n :: seen) rest) := by
        simp only [processNames]
        rw [hok]
      rw [hl, hr]
      refine ih et2 sid (n :: seen) hval2 ?_
      intro m hm
      rcases List.mem_cons.mp hm with rfl | hm2
      · exact ⟨id, hrows, hjmem⟩
      · obtain ⟨idm, hrowsm, hjnm⟩ := hseen m hm2
        have hmn : m ≠ n := fun h => hn (h ▸ hm2)
        exact ⟨idm, (hpres m hmn).trans hrowsm, hjmono _ hjnm⟩

/-- Invariant of the result-draining loop: the header has been written exactly
when at least one CSV row has been written. -/
theorem processResult_inv (st : MainState) (res : String × Option RatePayload)
    (h : st.header_written = true ↔ st.csvRows ≠ []) :
    (processResult st res).header_written = true ↔
      (processResult st res).csvRows ≠ [] := by
  obtain ⟨key, pay⟩ := res
  cases pay with
  | none => exact h
  | some payload =>
    by_cases ht : payloadTruthy payload
    · cases htr : transform_json_to_csv_rows (some payload) key with
      | nil =>
        have heq : processResult st (key, some payload) = st := by
          simp [processResult, ht, htr]
        rw [heq]
        exact h
      | cons r rs =>
        have heq : processResult st (key, some payload) = ⟨true, st.csvRows ++ r :: rs⟩ := by
          simp [processResult, ht, htr]
        rw [heq]
        simp
    · have heq : processResult st (key, some payload) = st := by
        simp [processResult, ht]
      rw [heq]
      exact h

theorem mainFold_inv (net : String → FetchOutcome) (keys : List String) :
    ∀ st : MainState, (st.header_written = true ↔ st.csvRows ≠ []) →
      ((keys.foldl (fun st key =>
          processResult st (fetch_exchange_rate_for_date net key DEFAULT_BASE_CURRENCY))
          st).header_written = true ↔
       (keys.foldl (fun st key =>
          processResult st (fetch_exchange_rate_for_date net key DEFAULT_BASE_CURRENCY))
          st).csvRows ≠ []) := by
  induction keys with
  | nil =>
    intro st h
    exact h
  | cons k ks ih =>
    intro st h
    simp only [List.foldl_cons]
    exact ih _ (processResult_inv _ _ h)

/-! ### Claims -/

/-- C2: For every input key (date string), `fetch_exchange_rate_for_date` never
raises past its boundary (the embedded function is total): it always returns a
pair of the original key and either the parsed JSON payload on success or
`None` on any failure — an invalid date format (in which case the result does
not depend on the network at all, i.e. no HTTP request is issued), a transport
error, or a non-success HTTP status — so a failing key surfaces as an explicit
`(key, None)` value. -/
theorem c2_fetch_never_raises :
    ∀ (net : String → FetchOutcome) (target_date_str base_currency : String),
      (fetch_exchange_rate_for_date net target_date_str base_currency).1 = target_date_str ∧
      (parseYMD target_date_str = none →
        fetch_exchange_rate_for_date net target_date_str base_currency =
          (target_date_str, none) ∧
        ∀ net2, fetch_exchange_rate_for_date net2 target_date_str base_currency =
          fetch_exchange_rate_for_date net target_date_str base_currency) ∧
      (∀ y m d, parseYMD target_date_str = some (y, m, d) →
        (∀ p, net (apiUrl y m d base_currency) = .ok p →
          fetch_exchange_rate_for_date net target_date_str base_currency =
            (target_date_str, some p)) ∧
        ((net (apiUrl y m d base_currency) = .httpStatusError ∨
          net (apiUrl y m d base_currency) = .transportError ∨
          net (apiUrl y m d base_currency) = .invalidJson) →
          fetch_exchange_rate_for_date net target_date_str base_currency =
            (target_date_str, none))) := by
  intro net target base
  refine ⟨?_, ?_, ?_⟩
  · cases h : parseYMD target with
    | none => simp [fetch_exchange_rate_for_date, h]
    | some ymd =>
      cases hn : net (apiUrl ymd.1 ymd.2.1 ymd.2.2 base) <;>
        simp [fetch_exchange_rate_for_date, h, hn]
  · intro h
    refine ⟨by simp [fetch_exchange_rate_for_date, h], ?_⟩
    intro net2
    simp [fetch_exchange_rate_for_date, h]
  · intro y m d h
    refine ⟨?_, ?_⟩
    · intro p hp
      simp [fetch_exchange_rate_for_date, h, hp]
    · rintro (hp | hp | hp) <;> simp [fetch_exchange_rate_for_date, h, hp]

/-- Witness for C2 at concrete inputs: a transport failure for a valid date
surfaces as `(key, None)`, and an invalid date also yields `(key, None)`. -/
theorem c2_witness :
    fetch_exchange_rate_for_date (fun _ => .transportError) "2023-01-02" "USD" =
      ("2023-01-02", none) ∧
    fetch_exchange_rate_for_date (fun _ => .transportError) "not-a-date" "USD" =
      ("not-a-date", none) :=
  ⟨(((c2_fetch_never_raises (fun _ => .transportError) "2023-01-02" "USD").2.2
      2023 1 2 (by decide)).2 (Or.inr (Or.inl rfl))),
   ((c2_fetch_never_raises (fun _ => .transportError) "not-a-date" "USD").2.1
      (by decide)).1⟩

/-- C4: every row produced by the rate transform carries the requested date in
`effective_date`, even when the payload echoes a different date; no date echoed
by the upstream source ever appears there. -/
theorem c4_effective_date_is_requested :
    ∀ (raw : Option RatePayload) (requested_date : String) (r : CsvRow),
      r ∈ transform_json_to_csv_rows raw requested_date →
      r.effective_date = requested_date ∧
      (∀ (p : RatePayload) (d : String), raw = some p → p.date = some d →
        d ≠ requested_date → r.effective_date ≠ d) := by
  intro raw requested r hr
  have hdate : r.effective_date = requested := by
    cases raw with
    | none => simp [transform_json_to_csv_rows] at hr
    | some p =>
      by_cases ht : payloadTruthy p
      · cases hb : p.base with
        | none => simp [transform_json_to_csv_rows, ht, hb] at hr
        | some b =>
          by_cases hbe : b = ""
          · simp [transform_json_to_csv_rows, ht, hb, hbe] at hr
          · simp only [transform_json_to_csv_rows, ht, if_true, hb, hbe,
              ne_eq, not_false_eq_true, List.mem_filterMap,
              Option.map_eq_some'] at hr
            obtain ⟨cv, -, v, -, hv⟩ := hr
            rw [← hv]
      · simp [transform_json_to_csv_rows, ht] at hr
  refine ⟨hdate, ?_⟩
  intro p d _ _ hne
  rw [hdate]
  exact fun hcontra => hne hcontra.symm

/-- Witness for C4 at a concrete input: the payload echoes the prior business
day `"2022-12-30"` but the emitted row is tagged with the requested
`"2023-01-02"`. -/
theorem c4_witness :
    transform_json_to_csv_rows
        (some ⟨some "USD", some [("EUR", .jnum ⟨9, 1⟩)], some "2022-12-30"⟩)
        "2023-01-02" =
      [⟨"USD", "EUR", ⟨9, 1⟩, "2023-01-02"⟩] ∧
    (⟨"USD", "EUR", ⟨9, 1⟩, "2023-01-02"⟩ : CsvRow).effective_date = "2023-01-02" :=
  ⟨by decide,
   (c4_effective_date_is_requested
      (some ⟨some "USD", some [("EUR", .jnum ⟨9, 1⟩)], some "2022-12-30"⟩)
      "2023-01-02" ⟨"USD", "EUR", ⟨9, 1⟩, "2023-01-02"⟩ (by decide)).1⟩

/-- C8: a `Movie` row with duration-or-seasons field `"114 min"` yields
duration 114 and NULL seasons; a `TV Show` row with `"2 Seasons"` yields
seasons 2 and NULL duration; and for any field text the field not selected by
the row's type is left NULL. -/
theorem c8_duration_seasons :
    parseDurationSeasons "Movie" "114 min" = (some 114, none) ∧
    parseDurationSeasons "TV Show" "2 Seasons" = (none, some 2) ∧
    (∀ raw : String, (parseDurationSeasons "Movie" raw).2 = none ∧
      (parseDurationSeasons "TV Show" raw).1 = none) :=
  ⟨by decide, by decide, fun raw => by simp [parseDurationSeasons]⟩

/-- C9: on the payload `{"base": "USD", "rates": {"EUR": "0.91", "GBP": "bad"}}`
with requested date `"2023-01-02"`, the transform returns exactly one row
`(USD, EUR, 0.91, 2023-01-02)`; the GBP entry, whose rate fails float
coercion, is dropped rather than failing the transform. -/
theorem c9_rate_transform_example :
    transform_json_to_csv_rows
        (some ⟨some "USD", some [("EUR", .jstr "0.91"), ("GBP", .jstr "bad")], none⟩)
        "2023-01-02" =
      [⟨"USD", "EUR", ⟨91, 2⟩, "2023-01-02"⟩] := by
  decide

/-- C10: a non-null payload without a truthy `"base"` field transforms to the
empty row list without raising, and a payload with a base but no `"rates"`
mapping likewise yields zero rows (the function is total, so a malformed body
contributes nothing rather than erroring). -/
theorem c10_malformed_payload_yields_nothing :
    ∀ (p : RatePayload) (requested_date : String),
      ((p.base = none ∨ p.base = some "") →
        transform_json_to_csv_rows (some p) requested_date = []) ∧
      (p.rates = none →
        transform_json_to_csv_rows (some p) requested_date = []) := by
  intro p requested
  constructor
  · rintro (hb | hb) <;> simp [transform_json_to_csv_rows, hb]
  · intro hr
    cases hb : p.base <;> simp [transform_json_to_csv_rows, hr, hb]

/-- Witness for C10 at concrete inputs: a payload with rates but no base, and
a payload with a base but no rates, both transform to zero rows. -/
theorem c10_witness :
    transform_json_to_csv_rows
        (some ⟨none, some [("EUR", .jnum ⟨1, 0⟩)], none⟩) "2023-01-02" = [] ∧
    transform_json_to_csv_rows
        (some ⟨some "USD", none, some "2023-01-02"⟩) "2023-01-02" = [] :=
  ⟨(c10_malformed_payload_yields_nothing
      ⟨none, some [("EUR", .jnum ⟨1, 0⟩)], none⟩ "2023-01-02").1 (Or.inl rfl),
   (c10_malformed_payload_yields_nothing
      ⟨some "USD", none, some "2023-01-02"⟩ "2023-01-02").2 rfl⟩

/-- C6: a CSV row with fewer than 12 columns is skipped — it contributes
nothing to the sink (the step lands on the committed state, via the rollback
the code performs) and the loop continues with the next row — and a row with
more than 12 columns is processed exactly as its truncation to the first 12
columns. -/
theorem c6_column_arity :
    ∀ (st : EtlState) (i : Nat) (row : List String) (rest : List (List String)),
      row ≠ [] → ¬(i = 0 ∧ isHeaderRow row) →
      (row.length < EXPECTED_COLS →
        etlStep st i row = ⟨st.committed, st.committed⟩ ∧
        etlLoop st i (row :: rest) = etlLoop ⟨st.committed, st.committed⟩ (i + 1) rest) ∧
      (EXPECTED_COLS < row.length →
        etlStep st i row = etlStep st i (row.take EXPECTED_COLS)) := by
  intro st i row rest hne hhd
  constructor
  · intro hlt
    have hstep : etlStep st i row = ⟨st.committed, st.committed⟩ := by
      unfold etlStep
      rw [if_neg hne, if_neg hhd, if_pos hlt]
    refine ⟨hstep, ?_⟩
    simp only [etlLoop]
    rw [hstep]
  · intro hgt
    cases row with
    | nil => exact absurd rfl hne
    | cons a row2 =>
      have htne : (a :: row2).take EXPECTED_COLS ≠ [] := by
        simp [EXPECTED_COLS]
      have hhde : isHeaderRow ((a :: row2).take EXPECTED_COLS) = isHeaderRow (a :: row2) := rfl
      have hhd2 : ¬(i = 0 ∧ isHeaderRow ((a :: row2).take EXPECTED_COLS)) := by
        rw [hhde]
        exact hhd
      have hlen : ¬((a :: row2).length < EXPECTED_COLS) := by omega
      have hlen2 : ¬(((a :: row2).take EXPECTED_COLS).length < EXPECTED_COLS) := by
        rw [List.length_take]
        omega
      have htt : ((a :: row2).take EXPECTED_COLS).take EXPECTED_COLS =
          (a :: row2).take EXPECTED_COLS := by
        rw [List.take_take, min_self]
      unfold etlStep
      rw [if_neg hne, if_neg hhd, if_neg hlen, if_neg htne, if_neg hhd2, if_neg hlen2, htt]

/-- Witness for C6 at concrete inputs: a 2-column row is skipped with a
rollback and the run continues; a 13-column row is processed as its first 12
columns. -/
theorem c6_witness :
    (etlStep ⟨⟨[], ⟨⟨[], 1⟩, []⟩, ⟨⟨[], 1⟩, []⟩, ⟨⟨[], 1⟩, []⟩, ⟨⟨[], 1⟩, []⟩⟩,
              ⟨[⟨"s0", "Movie", "T0", none, none, 1999, "PG", none, none, "d"⟩],
               ⟨⟨[], 1⟩, []⟩, ⟨⟨[], 1⟩, []⟩, ⟨⟨[], 1⟩, []⟩, ⟨⟨[], 1⟩, []⟩⟩⟩ 3
        ["s1", "Movie"] =
      ⟨⟨[], ⟨⟨[], 1⟩, []⟩, ⟨⟨[], 1⟩, []⟩, ⟨⟨[], 1⟩, []⟩, ⟨⟨[], 1⟩, []⟩⟩,
       ⟨[], ⟨⟨[], 1⟩, []⟩, ⟨⟨[], 1⟩, []⟩, ⟨⟨[], 1⟩, []⟩, ⟨⟨[], 1⟩, []⟩⟩⟩) ∧
    (etlStep ⟨⟨[], ⟨⟨[], 1⟩, []⟩, ⟨⟨[], 1⟩, []⟩, ⟨⟨[], 1⟩, []⟩, ⟨⟨[], 1⟩, []⟩⟩,
              ⟨[], ⟨⟨[], 1⟩, []⟩, ⟨⟨[], 1⟩, []⟩, ⟨⟨[], 1⟩, []⟩, ⟨⟨[], 1⟩, []⟩⟩⟩ 3
        ["s1", "Movie", "T1", "", "", "", "", "2000", "PG", "114 min", "", "d", "extra"] =
      etlStep ⟨⟨[], ⟨⟨[], 1⟩, []⟩, ⟨⟨[], 1⟩, []⟩, ⟨⟨[], 1⟩, []⟩, ⟨⟨[], 1⟩, []⟩⟩,
               ⟨[], ⟨⟨[], 1⟩, []⟩, ⟨⟨[], 1⟩, []⟩, ⟨⟨[], 1⟩, []⟩, ⟨⟨[], 1⟩, []⟩⟩⟩ 3
        (["s1", "Movie", "T1", "", "", "", "", "2000", "PG", "114 min", "", "d",
          "extra"].take EXPECTED_COLS)) :=
  ⟨((c6_column_arity _ 3 ["s1", "Movie"] [] (by decide) (by decide)).1 (by decide)).1,
   (c6_column_arity _ 3
      ["s1", "Movie", "T1", "", "", "", "", "2000", "PG", "114 min", "", "d", "extra"]
      [] (by decide) (by decide)).2 (by decide)⟩

/-- C3 counterexample: processing a valid row alone leaves its show row in the
sink, but processing the same row followed by a failing row (unparseable
release year `"bad"`) leaves the sink with NO shows at all — the failing row's
rollback also discarded the earlier successful row's pending work, so it is
false that only the failing row's pending work is rolled back. -/
theorem c3_counterexample :
    (etl_process ⟨[], ⟨⟨[], 1⟩, []⟩, ⟨⟨[], 1⟩, []⟩, ⟨⟨[], 1⟩, []⟩, ⟨⟨[], 1⟩, []⟩⟩
        [["s1", "Movie", "T1", "", "", "", "", "2000", "PG", "114 min", "", "d"]]).shows =
      [⟨"s1", "Movie", "T1", none, none, 2000, "PG", some 114, none, "d"⟩] ∧
    (etl_process ⟨[], ⟨⟨[], 1⟩, []⟩, ⟨⟨[], 1⟩, []⟩, ⟨⟨[], 1⟩, []⟩, ⟨⟨[], 1⟩, []⟩⟩
        [["s1", "Movie", "T1", "", "", "", "", "2000", "PG", "114 min", "", "d"],
         ["s2", "Movie", "T2", "", "", "", "", "bad", "PG", "90 min", "", "d"]]).shows =
      [] := by
  constructor <;> decide

/-- C3 (amended): when parsing or a database operation for a row fails (or the
row is too short), the rollback restores the last COMMITTED state — discarding
the failing row's pending work and that of every earlier row since the last
commit — the loop continues with the next row, and committed work is
unaffected; no per-row failure aborts the run. -/
theorem c3_rollback_to_committed :
    ∀ (st : EtlState) (i : Nat) (row : List String) (rest : List (List String)),
      row ≠ [] → ¬(i = 0 ∧ isHeaderRow row) →
      (row.length < EXPECTED_COLS ∨
        ∃ e, processRow st.pending (row.take EXPECTED_COLS) = .error e) →
      etlLoop st i (row :: rest) = etlLoop ⟨st.committed, st.committed⟩ (i + 1) rest := by
  intro st i row rest hne hhd hfail
  have hstep : etlStep st i row = ⟨st.committed, st.committed⟩ := by
    unfold etlStep
    rw [if_neg hne, if_neg hhd]
    by_cases hlt : row.length < EXPECTED_COLS
    · rw [if_pos hlt]
    · rw [if_neg hlt]
      rcases hfail with h | ⟨e, he⟩
      · exact absurd h hlt
      · rw [he]
  simp only [etlLoop]
  rw [hstep]

/-- Witness for C3's amended theorem: a pending (uncommitted) successful show
row is discarded when the next row fails to parse, and the loop continues. -/
theorem c3_witness :
    etlLoop ⟨⟨[], ⟨⟨[], 1⟩, []⟩, ⟨⟨[], 1⟩, []⟩, ⟨⟨[], 1⟩, []⟩, ⟨⟨[], 1⟩, []⟩⟩,
             ⟨[⟨"s1", "Movie", "T1", none, none, 2000, "PG", some 114, none, "d"⟩],
              ⟨⟨[], 1⟩, []⟩, ⟨⟨[], 1⟩, []⟩, ⟨⟨[], 1⟩, []⟩, ⟨⟨[], 1⟩, []⟩⟩⟩ 1
        [["s2", "Movie", "T2", "", "", "", "", "bad", "PG", "90 min", "", "d"]] =
      etlLoop ⟨⟨[], ⟨⟨[], 1⟩, []⟩, ⟨⟨[], 1⟩, []⟩, ⟨⟨[], 1⟩, []⟩, ⟨⟨[], 1⟩, []⟩⟩,
               ⟨[], ⟨⟨[], 1⟩, []⟩, ⟨⟨[], 1⟩, []⟩, ⟨⟨[], 1⟩, []⟩, ⟨⟨[], 1⟩, []⟩⟩⟩ 2 [] :=
  c3_rollback_to_committed
    ⟨⟨[], ⟨⟨[], 1⟩, []⟩, ⟨⟨[], 1⟩, []⟩, ⟨⟨[], 1⟩, []⟩, ⟨⟨[], 1⟩, []⟩⟩,
     ⟨[⟨"s1", "Movie", "T1", none, none, 2000, "PG", some 114, none, "d"⟩,],
      ⟨⟨[], 1⟩, []⟩, ⟨⟨[], 1⟩, []⟩, ⟨⟨[], 1⟩, []⟩, ⟨⟨[], 1⟩, []⟩⟩⟩ 1
    ["s2", "Movie", "T2", "", "", "", "", "bad", "PG", "90 min", "", "d"] []
    (by decide) (by decide) (Or.inr ⟨.parseError, rfl⟩)

/-- Unfolding of `mainRun` when at least one key was submitted. -/
theorem mainRun_cons (net : String → FetchOutcome) (dates : List String)
    (k : String) (ks : List String) (hk : submittedKeys dates = k :: ks) :
    mainRun net dates =
      (if ((k :: ks).foldl (fun st key =>
            processResult st (fetch_exchange_rate_for_date net key DEFAULT_BASE_CURRENCY))
            (⟨false, []⟩ : MainState)).header_written
       then (.success, (k :: ks).foldl (fun st key =>
            processResult st (fetch_exchange_rate_for_date net key DEFAULT_BASE_CURRENCY))
            (⟨false, []⟩ : MainState))
       else (.noRowsFatal, (k :: ks).foldl (fun st key =>
            processResult st (fetch_exchange_rate_for_date net key DEFAULT_BASE_CURRENCY))
            (⟨false, []⟩ : MainState))) := by
  unfold mainRun
  rw [hk]

/-- C7: the rate pipeline exits with status 0 exactly when at least one output
row was written; with zero submitted keys it takes the distinct "no keys"
fatal exit (status 1) having written neither header nor rows; with keys but no
written row it takes the distinct "no rows written" fatal exit (status 1); and
the two fatal outcomes are distinct. -/
theorem c7_exit_codes :
    ∀ (net : String → FetchOutcome) (dates : List String),
      (submittedKeys dates = [] →
        mainRun net dates = (.noKeysFatal, ⟨false, []⟩) ∧
        statusCode (mainRun net dates).1 = 1) ∧
      (submittedKeys dates ≠ [] → (mainRun net dates).2.csvRows = [] →
        (mainRun net dates).1 = .noRowsFatal ∧
        statusCode (mainRun net dates).1 = 1) ∧
      ((mainRun net dates).2.csvRows ≠ [] →
        (mainRun net dates).1 = .success ∧
        statusCode (mainRun net dates).1 = 0) ∧
      ExitStatus.noRowsFatal ≠ ExitStatus.noKeysFatal := by
  intro net dates
  cases hk : submittedKeys dates with
  | nil =>
    have hmain : mainRun net dates = (.noKeysFatal, ⟨false, []⟩) := by
      unfold mainRun
      rw [hk]
    refine ⟨fun _ => ⟨hmain, by rw [hmain]; rfl⟩, fun hne => absurd rfl hne, fun hcsv => ?_,
      by decide⟩
    rw [hmain] at hcsv
    simp at hcsv
  | cons k ks =>
    have hmain := mainRun_cons net dates k ks hk
    have hinv := mainFold_inv net (k :: ks) ⟨false, []⟩ (by simp)
    by_cases hw : ((k :: ks).foldl (fun st key =>
        processResult st (fetch_exchange_rate_for_date net key DEFAULT_BASE_CURRENCY))
        (⟨false, []⟩ : MainState)).header_written
    · rw [if_pos hw] at hmain
      have hcsv : (mainRun net dates).2.csvRows ≠ [] := by
        rw [hmain]
        exact hinv.mp hw
      refine ⟨fun h0 => absurd h0 (by simp),
        fun _ hc => absurd hc hcsv,
        fun _ => ⟨by rw [hmain], by rw [hmain]; rfl⟩, by decide⟩
    · rw [if_neg hw] at hmain
      have hcsv : (mainRun net dates).2.csvRows = [] := by
        rw [hmain]
        by_contra hc
        exact hw (hinv.mpr hc)
      refine ⟨fun h0 => absurd h0 (by simp),
        fun _ _ => ⟨by rw [hmain], by rw [hmain]; rfl⟩,
        fun hc => absurd hcsv hc, by decide⟩

/-- Witness for C7 at concrete inputs: a blank key list exits fatally with "no
keys" and no header; one valid key whose fetch fails exits fatally with "no
rows written"; one valid key with a good payload exits successfully. -/
theorem c7_witness :
    (mainRun (fun _ => .transportError) [" "] = (.noKeysFatal, ⟨false, []⟩)) ∧
    ((mainRun (fun _ => .transportError) ["2023-01-02"]).1 = .noRowsFatal) ∧
    ((mainRun (fun _ => .ok ⟨some "USD", some [("EUR", .jnum ⟨1, 0⟩)], none⟩)
        ["2023-01-02"]).1 = .success) :=
  ⟨((c7_exit_codes (fun _ => .transportError) [" "]).1 (by decide)).1,
   ((c7_exit_codes (fun _ => .transportError) ["2023-01-02"]).2.1
      (by decide) (by decide)).1,
   ((c7_exit_codes (fun _ => .ok ⟨some "USD", some [("EUR", .jnum ⟨1, 0⟩)], none⟩)
      ["2023-01-02"]).2.2.1 (by decide)).1⟩

/-- C5 counterexample: for the field `"A, A"` the sequence of child-entity
names handed to the sink is `["A", "A"]` — split on commas and trimmed, but
NOT de-duplicated: the claim that the names are de-duplicated per show before
being handed to the sink is false. -/
theorem c5_counterexample :
    childRefs "A, A" = ["A", "A"] ∧ ¬ (childRefs "A, A").Nodup := by
  constructor <;> decide

/-- C5 (amended): each list-valued field is split on commas, each element
trimmed of whitespace, and empty names dropped; the resulting names are handed
to the sink WITHOUT per-show de-duplication, but the sink's get-or-create and
conflict-ignore junction insert absorb the duplicates, so processing the field
is equal to processing its duplicate-free (first occurrences) sublist. -/
theorem c5_sink_absorbs_duplicates :
    ∀ (et : EntityTables) (show_id field : String),
      validTable et.lookup →
      processField et show_id field =
        processNames et show_id (dedupFirst (childRefs field)) := by
  intro et sid field hval
  unfold processField dedupFirst
  exact processNames_dedup_go (childRefs field) et sid [] hval (by simp)

/-- Witness for C5's amended theorem on the duplicated field `"A, A"` against
an empty sink. -/
theorem c5_witness :
    processField ⟨⟨[], 1⟩, []⟩ "s1" "A, A" =
      processNames ⟨⟨[], 1⟩, []⟩ "s1" (dedupFirst (childRefs "A, A")) :=
  c5_sink_absorbs_duplicates ⟨⟨[], 1⟩, []⟩ "s1" "A, A" (by simp [validTable, tableNames])

/-- C1: `get_or_create_id` (for every lookup-entity kind — directors, cast
members, countries, genres, which all call it with the same shape) returns the
id of the existing row when a row with the name exists; otherwise it inserts
and returns the freshly generated id; and when the insert hits the 1062
duplicate-key violation (a row with the name appeared between the SELECT and
the INSERT), it re-selects by name and returns the existing id instead of
raising. In every case the call succeeds and the table ends with exactly one
row for the name, whose id is returned. Consequently, after processing any
(non-empty) sequence of shows referencing the same name against a cleared
junction table, the lookup table contains exactly one row for that name and
every junction row for those shows references that single id. -/
theorem c1_get_or_create_unique :
    (∀ (tSelect tInsert : LookupTable) (name : String),
      (∀ r ∈ tSelect.rows, r ∈ tInsert.rows) → validTable tInsert →
      ∃ id t2, get_or_create_id tSelect tInsert name = .ok (id, t2) ∧
        rowsForName t2 name = [(id, name)] ∧
        (∀ id0, selectByName tSelect name = some id0 → id = id0 ∧ t2 = tInsert) ∧
        (selectByName tSelect name = none → name ∉ tableNames tInsert →
          id = tInsert.nextId ∧ t2.rows = tInsert.rows ++ [(tInsert.nextId, name)]) ∧
        (selectByName tSelect name = none → name ∈ tableNames tInsert →
          t2 = tInsert ∧ (id, name) ∈ tInsert.rows)) ∧
    (∀ (tab : LookupTable) (name : String) (sids : List String),
      validTable tab → sids ≠ [] →
      ∃ et2 theId, processShows ⟨tab, []⟩ name sids = .ok et2 ∧
        rowsForName et2.lookup name = [(theId, name)] ∧
        (∀ sid ∈ sids, (sid, theId) ∈ et2.junction) ∧
        (∀ p ∈ et2.junction, p.2 = theId ∧ p.1 ∈ sids)) := by
  constructor
  · intro tSelect tInsert name hsub hval
    obtain ⟨id, t2, hok, hrows, hcase⟩ := goc_spec tSelect tInsert name hsub hval
    refine ⟨id, t2, hok, hrows, ?_, ?_, ?_⟩
    · intro id0 hsel
      obtain ⟨r, hfind, hr1⟩ := Option.map_eq_some'.mp hsel
      have hmemSel : r ∈ tSelect.rows := List.mem_of_find?_eq_some hfind
      have hp := List.find?_some hfind
      simp only [beq_iff_eq] at hp
      have hrpair : (id0, name) ∈ tSelect.rows := by
        cases r
        simp_all
      have hmemIns := hsub _ hrpair
      rcases hcase with ⟨rfl, -⟩ | ⟨hnot, -, -, -⟩
      · have h0 := rowsForName_of_valid_mem hval hmemIns
        rw [hrows] at h0
        exact ⟨congrArg Prod.fst (List.cons_eq_cons.mp h0).1, rfl⟩
      · exact absurd (List.mem_map.mpr ⟨(id0, name), hmemIns, rfl⟩) hnot
    · intro hsel hnot
      rcases hcase with ⟨rfl, hmem⟩ | ⟨-, hid, hrows2, -⟩
      · exact absurd (List.mem_map.mpr ⟨(id, name), hmem, rfl⟩) hnot
      · exact ⟨hid, hrows2⟩
    · intro hsel hmem
      rcases hcase with ⟨rfl, hmem2⟩ | ⟨hnot, -, -, -⟩
      · exact ⟨rfl, hmem2⟩
      · exact absurd hmem hnot
  · intro tab name sids hval hne
    cases sids with
    | nil => exact absurd rfl hne
    | cons sid rest =>
      obtain ⟨id, et1, hok, hrows, hval1, hpres, hjeq, hjmono, hjmem⟩ :=
        refStep_spec ⟨tab, []⟩ sid name hval
      obtain ⟨jn2, hps, hiff⟩ := processShows_stable rest et1 name id hrows
      refine ⟨⟨et1.lookup, jn2⟩, id, ?_, hrows, ?_, ?_⟩
      · simp only [processShows]
        rw [hok]
        exact hps
      · intro s hs
        rcases List.mem_cons.mp hs with rfl | hs2
        · exact (hiff (s, id)).mpr (.inl hjmem)
        · exact (hiff (s, id)).mpr (.inr ⟨rfl, hs2⟩)
      · intro p hp
        rcases (hiff p).mp hp with hmem | ⟨h2, h1⟩
        · rw [hjeq] at hmem
          rcases insertIgnore_mem.mp hmem with h | rfl
          · simp at h
          · exact ⟨rfl, List.mem_cons_self _ _⟩
        · exact ⟨h2, List.mem_cons_of_mem _ h1⟩

/-- Witness for C1: a fresh get-or-create against a table already holding the
name returns the existing id, and processing two shows referencing the same
name yields one lookup row and junction rows for both shows. -/
theorem c1_witness :
    (∃ id t2, get_or_create_id ⟨[(7, "Ana")], 9⟩ ⟨[(7, "Ana")], 9⟩ "Ana" = .ok (id, t2) ∧
      rowsForName t2 "Ana" = [(id, "Ana")]) ∧
    (∃ et2 theId, processShows ⟨⟨[], 1⟩, []⟩ "Ana" ["s1", "s2"] = .ok et2 ∧
      rowsForName et2.lookup "Ana" = [(theId, "Ana")] ∧
      ∀ sid ∈ (["s1", "s2"] : List String), (sid, theId) ∈ et2.junction) := by
  constructor
  · obtain ⟨id, t2, hok, hrows, -, -, -⟩ :=
      c1_get_or_create_unique.1 ⟨[(7, "Ana")], 9⟩ ⟨[(7, "Ana")], 9⟩ "Ana"
        (fun r hr => hr) (by simp [validTable, tableNames])
    exact ⟨id, t2, hok, hrows⟩
  · obtain ⟨et2, theId, hok, hrows, hjn, -⟩ :=
      c1_get_or_create_unique.2 ⟨[], 1⟩ "Ana" ["s1", "s2"]
        (by simp [validTable, tableNames]) (by simp)
    exact ⟨et2, theId, hok, hrows, hjn⟩
